import Mathlib

/-!
Verification of the `amzn` repository (Go): an Amazon Product Advertising API
item-lookup client and a wishlist page scraper, both in
`src/item-lookup/item-lookup.go`.

Go strings are byte sequences; we embed them as `List Nat` with every element a
byte value.  `strBytes` turns a Lean string literal into its UTF-8 bytes, the
encoding Go uses for source literals.
-/

namespace Amzn

/-- UTF-8 encoding of one character, as byte values. -/
def utf8Char (c : Char) : List Nat :=
  let n := c.toNat
  if n < 0x80 then [n]
  else if n < 0x800 then [0xC0 + n / 64, 0x80 + n % 64]
  else if n < 0x10000 then [0xE0 + n / 4096, 0x80 + n / 64 % 64, 0x80 + n % 64]
  else [0xF0 + n / 262144, 0x80 + n / 4096 % 64, 0x80 + n / 64 % 64, 0x80 + n % 64]

/-- The bytes of a Go string literal (UTF-8). -/
def strBytes (s : String) : List Nat :=
  s.data.flatMap utf8Char

/-- Byte-lexicographic comparison, the order `sort.Strings` uses on Go
strings (Go compares strings bytewise, a strict prefix sorting first). -/
def lexLeB : List Nat → List Nat → Bool
  | [], _ => true
  | _ :: _, [] => false
  | a :: as, b :: bs => if a < b then true else if b < a then false else lexLeB as bs

/-- The byte-lexicographic order as a relation. -/
def bytesLe (x y : List Nat) : Prop := lexLeB x y = true

instance : DecidableRel bytesLe := fun x y => by
  unfold bytesLe; infer_instance

theorem lexLeB_total : ∀ x y : List Nat, lexLeB x y = true ∨ lexLeB y x = true
  | [], _ => Or.inl rfl
  | _ :: _, [] => Or.inr rfl
  | a :: as, b :: bs => by
    simp only [lexLeB]
    rcases Nat.lt_trichotomy a b with h | h | h
    · simp [h]
    · subst h
      simpa [Nat.lt_irrefl] using lexLeB_total as bs
    · simp [h, Nat.lt_asymm h]

theorem lexLeB_antisymm : ∀ x y : List Nat,
    lexLeB x y = true → lexLeB y x = true → x = y
  | [], [], _, _ => rfl
  | [], _ :: _, _, h => by simp [lexLeB] at h
  | _ :: _, [], h, _ => by simp [lexLeB] at h
  | a :: as, b :: bs, h1, h2 => by
    simp only [lexLeB] at h1 h2
    rcases Nat.lt_trichotomy a b with h | h | h
    · simp [h, Nat.lt_asymm h] at h2
    · subst h
      simp only [Nat.lt_irrefl, if_false] at h1 h2
      exact congrArg (a :: ·) (lexLeB_antisymm as bs h1 h2)
    · simp [h, Nat.lt_asymm h] at h1

theorem lexLeB_trans : ∀ x y z : List Nat,
    lexLeB x y = true → lexLeB y z = true → lexLeB x z = true
  | [], _, _, _, _ => rfl
  | _ :: _, [], _, h, _ => by simp [lexLeB] at h
  | _ :: _, _ :: _, [], _, h => by simp [lexLeB] at h
  | a :: as, b :: bs, c :: cs, h1, h2 => by
    simp only [lexLeB] at h1 h2 ⊢
    rcases Nat.lt_trichotomy a b with hab | hab | hab
    · rcases Nat.lt_trichotomy b c with hbc | hbc | hbc
      · simp [Nat.lt_trans hab hbc]
      · subst hbc; simp [hab]
      · simp [hbc, Nat.lt_asymm hbc] at h2
    · subst hab
      rcases Nat.lt_trichotomy a c with hac | hac | hac
      · simp [hac]
      · subst hac
        simp only [Nat.lt_irrefl, if_false] at h1 h2 ⊢
        exact lexLeB_trans as bs cs h1 h2
      · simp [hac, Nat.lt_asymm hac] at h2
    · simp [hab, Nat.lt_asymm hab] at h1

instance : IsTotal (List Nat) bytesLe := ⟨lexLeB_total⟩
instance : IsTrans (List Nat) bytesLe := ⟨lexLeB_trans⟩
instance : IsAntisymm (List Nat) bytesLe := ⟨lexLeB_antisymm⟩

/-! ### `net/url.QueryEscape`

Go escapes every byte except ASCII alphanumerics and `-_.~`; a space becomes
`+` and every other byte becomes `%XX` with uppercase hex digits. -/

/-- Bytes `url.QueryEscape` leaves unchanged. -/
def isUnreservedQE (b : Nat) : Bool :=
  (48 ≤ b && b ≤ 57) || (65 ≤ b && b ≤ 90) || (97 ≤ b && b ≤ 122) ||
    b == 45 || b == 95 || b == 46 || b == 126

/-- Uppercase hexadecimal digit for a value below 16. -/
def hexDigU (n : Nat) : Nat := if n < 10 then 48 + n else 55 + n

/-- Escape a single byte as `url.QueryEscape` does. -/
def escByte (b : Nat) : List Nat :=
  if isUnreservedQE b then [b]
  else if b == 32 then [43]
  else [37, hexDigU (b / 16), hexDigU (b % 16)]

/-- `url.QueryEscape` on a byte string. -/
def queryEscape (s : List Nat) : List Nat := s.flatMap escByte

/-! ### `encoding/base64.StdEncoding.EncodeToString` -/

/-- Character of the standard base64 alphabet, as a byte. -/
def b64char (n : Nat) : Nat :=
  if n < 26 then 65 + n
  else if n < 52 then 97 + (n - 26)
  else if n < 62 then 48 + (n - 52)
  else if n == 62 then 43 else 47

/-- Standard base64 with `=` padding, on bytes. -/
def base64Encode : List Nat → List Nat
  | [] => []
  | [a] => [b64char (a / 4), b64char (a % 4 * 16), 61, 61]
  | [a, b] => [b64char (a / 4), b64char (a % 4 * 16 + b / 16), b64char (b % 16 * 4), 61]
  | a :: b :: c :: rest =>
      b64char (a / 4) :: b64char (a % 4 * 16 + b / 16) ::
        b64char (b % 16 * 4 + c / 64) :: b64char (c % 64) :: base64Encode rest

/-! ### `crypto/sha256` and `crypto/hmac`

SHA-256 per FIPS 180-4, on byte lists, with 32-bit words as `Nat` reduced
modulo `2 ^ 32`. -/

/-- Truncate to a 32-bit word. -/
def w32 (n : Nat) : Nat := n % 4294967296

/-- Rotate a 32-bit word right by `k`. -/
def rotr (k n : Nat) : Nat := w32 ((n >>> k) ||| (n <<< (32 - k)))

def bigS0 (x : Nat) : Nat := rotr 2 x ^^^ rotr 13 x ^^^ rotr 22 x
def bigS1 (x : Nat) : Nat := rotr 6 x ^^^ rotr 11 x ^^^ rotr 25 x
def smallS0 (x : Nat) : Nat := rotr 7 x ^^^ rotr 18 x ^^^ (x >>> 3)
def smallS1 (x : Nat) : Nat := rotr 17 x ^^^ rotr 19 x ^^^ (x >>> 10)
def chF (e f g : Nat) : Nat := (e &&& f) ^^^ ((e ^^^ 4294967295) &&& g)
def majF (a b c : Nat) : Nat := (a &&& b) ^^^ (a &&& c) ^^^ (b &&& c)

/-- The 64 SHA-256 round constants (FIPS 180-4 section 4.2.2, in decimal). -/
def sha256K : List Nat :=
  [1116352408, 1899447441, 3049323471, 3921009573, 961987163, 1508970993,
   2453635748, 2870763221, 3624381080, 310598401, 607225278, 1426881987,
   1925078388, 2162078206, 2614888103, 3248222580, 3835390401, 4022224774,
   264347078, 604807628, 770255983, 1249150122, 1555081692, 1996064986,
   2554220882, 2821834349, 2952996808, 3210313671, 3336571891, 3584528711,
   113926993, 338241895, 666307205, 773529912, 1294757372, 1396182291,
   1695183700, 1986661051, 2177026350, 2456956037, 2730485921, 2820302411,
   3259730800, 3345764771, 3516065817, 3600352804, 4094571909, 275423344,
   430227734, 506948616, 659060556, 883997877, 958139571, 1322822218,
   1537002063, 1747873779, 1955562222, 2024104815, 2227730452, 2361852424,
   2428436474, 2756734187, 3204031479, 3329325298]

/-- The SHA-256 initial hash value (FIPS 180-4 section 5.3.3, in decimal). -/
def sha256H0 : List Nat :=
  [1779033703, 3144134277, 1013904242, 2773480762,
   1359893119, 2600822924, 528734635, 1541459225]

/-- Big-endian 8-byte encoding of a 64-bit quantity. -/
def be64 (n : Nat) : List Nat :=
  [n / 2 ^ 56 % 256, n / 2 ^ 48 % 256, n / 2 ^ 40 % 256, n / 2 ^ 32 % 256,
   n / 2 ^ 24 % 256, n / 2 ^ 16 % 256, n / 2 ^ 8 % 256, n % 256]

/-- SHA-256 padding: `0x80`, zeros to 56 mod 64, then the bit length. -/
def sha256pad (msg : List Nat) : List Nat :=
  let z := (120 - (msg.length + 1) % 64) % 64
  msg ++ [0x80] ++ List.replicate z 0 ++ be64 (8 * msg.length)

/-- Big-endian packing of bytes into 32-bit words. -/
def bytesToWords : List Nat → List Nat
  | a :: b :: c :: d :: rest =>
      (a * 16777216 + b * 65536 + c * 256 + d) :: bytesToWords rest
  | _ => []

/-- Big-endian unpacking of 32-bit words into bytes. -/
def wordsToBytes (ws : List Nat) : List Nat :=
  ws.flatMap fun n => [n / 16777216 % 256, n / 65536 % 256, n / 256 % 256, n % 256]

/-- Extend the 16 message-schedule words by `n` more. -/
def schedLoop (w : List Nat) : Nat → List Nat
  | 0 => w
  | n + 1 =>
      let g := fun i => w.getD i 0
      schedLoop (w ++ [w32 (g (w.length - 16) + smallS0 (g (w.length - 15)) +
        g (w.length - 7) + smallS1 (g (w.length - 2)))]) n

/-- One SHA-256 compression round on state `[a,b,c,d,e,f,g,h]`. -/
def oneRound (st : List Nat) (kw : Nat × Nat) : List Nat :=
  let g := fun i => st.getD i 0
  let t1 := w32 (g 7 + bigS1 (g 4) + chF (g 4) (g 5) (g 6) + kw.1 + kw.2)
  let t2 := w32 (bigS0 (g 0) + majF (g 0) (g 1) (g 2))
  [w32 (t1 + t2), g 0, g 1, g 2, w32 (g 3 + t1), g 4, g 5, g 6]

/-- The 64 compression rounds. -/
def rounds (st : List Nat) : List (Nat × Nat) → List Nat
  | [] => st
  | kw :: rest => rounds (oneRound st kw) rest

/-- Compress one padded 64-byte block into the hash state. -/
def sha256Block (h : List Nat) (block : List Nat) : List Nat :=
  let ws := schedLoop (bytesToWords block) 48
  let st := rounds h (sha256K.zip ws)
  List.zipWith (fun x y => w32 (x + y)) h st

/-- Fold the compression over all 64-byte blocks; `fuel` bounds the number of
blocks (any fuel at least the byte count is enough). -/
def sha256Blocks (h : List Nat) : Nat → List Nat → List Nat
  | _, [] => h
  | 0, _ => h
  | fuel + 1, bs => sha256Blocks (sha256Block h (bs.take 64)) fuel (bs.drop 64)

/-- SHA-256 digest of a byte string, as 32 bytes. -/
def sha256 (msg : List Nat) : List Nat :=
  let padded := sha256pad msg
  wordsToBytes (sha256Blocks sha256H0 padded.length padded)

/-- HMAC-SHA256 as in Go `crypto/hmac` (block size 64). -/
def hmacSha256 (key msg : List Nat) : List Nat :=
  let k0 := if 64 < key.length then sha256 key else key
  let kpad := k0 ++ List.replicate (64 - k0.length) 0
  let ipad := kpad.map (fun b => b ^^^ 0x36)
  let opad := kpad.map (fun b => b ^^^ 0x5c)
  sha256 (opad ++ sha256 (ipad ++ msg))

/-! ### The request signer (`signHmacSha256`, `newAWSQuery`, `signRequest`) -/

/-- `signHmacSha256(data, key)`: URL-escaped base64 of the HMAC-SHA256 of
`data` under `key` (source lines 67-72). -/
def signHmacSha256 (data key : List Nat) : List Nat :=
  queryEscape (base64Encode (hmacSha256 key data))

/-- `AWSCredentials` (source lines 54-58). -/
structure AWSCredentials where
  host : List Nat
  accessKey : List Nat
  secret : List Nat

/-- `AWSQuery` (source lines 60-64).  The Go `map[string]string` is embedded
as its list of entries; iteration order of a Go map is arbitrary, which the
permutation theorem below accounts for. -/
structure AWSQuery where
  host : List Nat
  accessKey : List Nat
  params : List (List Nat × List Nat)

/-- `newAWSQuery` (source lines 75-87).  `time.Now()` is an input here: `now`
is the formatted RFC-3339 UTC timestamp the source computes. -/
def newAWSQuery (host accessKey now : List Nat) : AWSQuery :=
  { host := host
    accessKey := accessKey
    params :=
      [(strBytes "Service", strBytes "AWSECommerceService"),
       (strBytes "Version", strBytes "2011-08-01"),
       (strBytes "AssociateTag", strBytes "PutYourAssociateTagHere"),
       (strBytes "Timestamp", queryEscape now),
       (strBytes "AWSAccessKeyId", accessKey)] }

/-- `signRequest` (source lines 90-104): collect `k=v` strings, sort them,
join with `&`, sign `GET\n<host>\n/onca/xml\n<query>`, and return the joined
query together with the signature. -/
def signRequest (aws : AWSQuery) (cred : AWSCredentials) : List Nat × List Nat :=
  let query := aws.params.map (fun kv => kv.1 ++ strBytes "=" ++ kv.2)
  let sorted := List.insertionSort bytesLe query
  let canonical := List.intercalate (strBytes "&") sorted
  let signString := strBytes "GET" ++ [10] ++ cred.host ++ [10] ++
    strBytes "/onca/xml" ++ [10] ++ canonical
  (canonical, signHmacSha256 signString cred.secret)

/-! ### Parsed XML documents and the `launchpad.net/xmlpath` queries

`xmlpath.Parse` yields a node tree; `parseItemAttributes` only uses paths of
the forms `//Name` (all elements named `Name` anywhere below the context node,
in document order) and `//Name/Child` (the `Child` children of those), taking
either the first match's text content (`Path.String`) or all matches in
document order (`Path.Iter`). -/

mutual
/-- A node of a parsed XML document: character data or an element. -/
inductive XNode where
  | text (s : List Nat)
  | elem (name : List Nat) (children : XForest)
deriving DecidableEq
/-- A list of sibling nodes. -/
inductive XForest where
  | nil
  | cons (head : XNode) (tail : XForest)
deriving DecidableEq
end

/-- Concatenated character data of a forest, in document order. -/
def textF : XForest → List Nat
  | .nil => []
  | .cons (.text s) t => s ++ textF t
  | .cons (.elem _ cs) t => textF cs ++ textF t

/-- `Node.String()`: the concatenated character data under a node. -/
def textContent : XNode → List Nat
  | .text s => s
  | .elem _ cs => textF cs

/-- All elements named `nm` in a forest, depth-first in document order. -/
def findF (nm : List Nat) : XForest → List XNode
  | .nil => []
  | .cons (.text _) t => findF nm t
  | .cons (.elem name cs) t =>
      (if name = nm then [XNode.elem name cs] else []) ++ findF nm cs ++ findF nm t

/-- `//nm` relative to a context node: all elements named `nm` strictly below
it, in document order. -/
def queryAll (nm : List Nat) : XNode → List XNode
  | .text _ => []
  | .elem _ cs => findF nm cs

/-- Direct children of a forest that are elements named `nm`, in order. -/
def childNamed (nm : List Nat) : XForest → List XNode
  | .nil => []
  | .cons (.text _) t => childNamed nm t
  | .cons (.elem name cs) t =>
      (if name = nm then [XNode.elem name cs] else []) ++ childNamed nm t

/-- The child forest of a node. -/
def childrenF : XNode → XForest
  | .text _ => .nil
  | .elem _ cs => cs

/-- `//p/c` relative to a context node, in document order. -/
def queryTwo (p c : List Nat) (n : XNode) : List XNode :=
  (queryAll p n).flatMap (fun e => childNamed c (childrenF e))

/-- `Path.String(node)` with the `ok` flag discarded: the text of the first
match, or empty when there is none (the `field, _ =` pattern in the source). -/
def optText (l : List XNode) : List Nat :=
  match l.head? with
  | some e => textContent e
  | none => []

/-- `ItemAttributes` (source lines 40-52). -/
structure ItemAttributes where
  author : List (List Nat)
  binding : List Nat
  ean : List Nat
  edition : List Nat
  isbn : List Nat
  pages : List Nat
  publicationDate : List Nat
  publisher : List Nat
  title : List Nat
  price : List Nat
  priceCurrency : List Nat
deriving DecidableEq

/-- `parseItemAttributes` (source lines 134-151). -/
def parseItemAttributes (node : XNode) : ItemAttributes :=
  { author := (queryAll (strBytes "Author") node).map textContent
    binding := optText (queryAll (strBytes "Binding") node)
    ean := optText (queryAll (strBytes "EAN") node)
    edition := optText (queryAll (strBytes "Edition") node)
    isbn := optText (queryAll (strBytes "ISBN") node)
    pages := optText (queryAll (strBytes "NumberOfPages") node)
    publicationDate := optText (queryAll (strBytes "PublicationDate") node)
    publisher := optText (queryAll (strBytes "Publisher") node)
    title := optText (queryAll (strBytes "Title") node)
    price := optText (queryTwo (strBytes "ListPrice") (strBytes "Amount") node)
    priceCurrency := optText (queryTwo (strBytes "ListPrice") (strBytes "CurrencyCode") node) }

/-! ### `lookupItem` and the `ItemAttributes` check in `main`

The HTTP transport and the XML parser are external capabilities; they enter as
the oracles `get` (`none` when the GET cannot be completed, in which case the
source dereferences the nil response and the operation fails) and `parseXml`
(`none` when `xmlpath.Parse` fails, in which case the source panics).  `main`'s
search for the first `//ItemAttributes` block (source lines 171-176) panics
when no block exists; the three failure points are the three errors. -/

/-- The three ways the lookup operation fails. -/
inductive LookupError where
  | network
  | malformed
  | notFound
deriving DecidableEq

/-- The query built by `lookupItem` (source lines 110-113): the base
parameters plus `Operation`, `ItemId` and `ResponseGroup`.  Setting a fresh
key of a Go map is appending an entry. -/
def lookupQuery (cred : AWSCredentials) (itemId now : List Nat) : AWSQuery :=
  let q := newAWSQuery cred.host cred.accessKey now
  { q with params := q.params ++
      [(strBytes "Operation", strBytes "ItemLookup"),
       (strBytes "ItemId", itemId),
       (strBytes "ResponseGroup", strBytes "ItemAttributes")] }

/-- The request URL `lookupItem` issues (source line 119). -/
def requestUrl (cred : AWSCredentials) (itemId now : List Nat) : List Nat :=
  let qs := signRequest (lookupQuery cred itemId now) cred
  strBytes "http://" ++ cred.host ++ strBytes "/onca/xml" ++ strBytes "?" ++
    qs.1 ++ strBytes "&Signature=" ++ qs.2

/-- `lookupItem` (source lines 107-131) together with `main`'s
`//ItemAttributes` check and the call to `parseItemAttributes`
(source lines 171-176). -/
def lookupItemOp (get : List Nat → Option (List Nat))
    (parseXml : List Nat → Option XNode) (cred : AWSCredentials)
    (itemId now : List Nat) : Except LookupError ItemAttributes :=
  match get (requestUrl cred itemId now) with
  | none => .error .network
  | some body =>
    match parseXml body with
    | none => .error .malformed
    | some root =>
      match (queryAll (strBytes "ItemAttributes") root).head? with
      | none => .error .notFound
      | some node => .ok (parseItemAttributes node)

/-! ### The regular expressions of the wishlist scraper

Every pattern the scraper compiles is a plain sequence of literal bytes and
single-character classes under a quantifier (no alternation, no nesting), so
the engine below embeds exactly that fragment.  Go's `regexp` uses
leftmost-first (Perl-style) matching: the match starts at the earliest
possible position, and at that position greedy quantifiers prefer longer and
lazy quantifiers prefer shorter repetitions, backtracking element by element.
`.` matches anything but a newline; `\s` is `[\t\n\f\r ]`. -/

/-- Character classes occurring in the scraper's patterns. -/
inductive RCls where
  | dot
  | ws
  | upAl
deriving DecidableEq

/-- Quantifiers occurring in the scraper's patterns. -/
inductive RQ where
  | one
  | starG
  | starL
  | plusG
deriving DecidableEq

/-- One token of a pattern: a literal byte, or a quantified class which may
be a capture group. -/
inductive RTok where
  | lit (b : Nat)
  | cl (c : RCls) (q : RQ) (grp : Bool)
deriving DecidableEq

/-- A pattern of the supported fragment. -/
abbrev RPat := List RTok

/-- Whether a byte is in a class. -/
def clsMatch : RCls → Nat → Bool
  | .dot, b => b != 10
  | .ws, b => b == 9 || b == 10 || b == 12 || b == 13 || b == 32
  | .upAl, b => (65 ≤ b && b ≤ 90) || (48 ≤ b && b ≤ 57)

/-- Length of the longest prefix of `s` inside class `c`. -/
def maxRun (c : RCls) : List Nat → Nat
  | [] => 0
  | b :: s => if clsMatch c b then maxRun c s + 1 else 0

/-- Repetition counts a quantifier tries, in preference order, when at most
`m` consecutive class characters are available. -/
def tryCounts (q : RQ) (m : Nat) : List Nat :=
  match q with
  | .one => if 1 ≤ m then [1] else []
  | .starG => (List.range (m + 1)).reverse
  | .starL => List.range (m + 1)
  | .plusG => ((List.range m).map (· + 1)).reverse

/-- Match a pattern against a prefix of `s`, backtracking in preference
order; on success return the captures (in group order) and the unconsumed
suffix. -/
def matchSeq : RPat → List Nat → Option (List (List Nat) × List Nat)
  | [], s => some ([], s)
  | .lit _ :: _, [] => none
  | .lit b :: ps, c :: s => if c = b then matchSeq ps s else none
  | .cl c q g :: ps, s =>
      (tryCounts q (maxRun c s)).findSome? fun n =>
        (matchSeq ps (s.drop n)).map fun r =>
          (if g then s.take n :: r.1 else r.1, r.2)

/-- Leftmost match of `p` in the suffix `s` of a string, `pos` being the
absolute index of `s`; returns absolute start and end and the captures. -/
def findAux (p : RPat) : Nat → List Nat → Option (Nat × Nat × List (List Nat))
  | pos, s =>
    match matchSeq p s with
    | some r => some (pos, pos + (s.length - r.2.length), r.1)
    | none =>
      match s with
      | [] => none
      | _ :: t => findAux p (pos + 1) t

/-- `FindStringSubmatch` / `FindStringIndex`: the leftmost-first match. -/
def find (p : RPat) (s : List Nat) : Option (Nat × Nat × List (List Nat)) :=
  findAux p 0 s

/-- All matches, leftmost first, continuing after each match's end; `fuel`
bounds the number of matches (the patterns used never match the empty string,
so `s.length + 1` is always enough). -/
def findAllAux (p : RPat) : Nat → Nat → List Nat → List (Nat × Nat)
  | 0, _, _ => []
  | fuel + 1, pos, s =>
    match findAux p pos s with
    | none => []
    | some r => (r.1, r.2.1) :: findAllAux p fuel r.2.1 (s.drop (r.2.1 - pos))

/-- `FindAllStringIndex(page, -1)`: index pairs of all matches. -/
def findAll (p : RPat) (s : List Nat) : List (Nat × Nat) :=
  findAllAux p (s.length + 1) 0 s

/-- The literal tokens of a string. -/
def lits (s : String) : RPat := (strBytes s).map RTok.lit

/-- `href="/dp/(.+)/ref` (source line 247). -/
def pDp : RPat := lits "href=\"/dp/" ++ [.cl .dot .plusG true] ++ lits "/ref"

/-- `</h5>\s*by (.*)\n` (source line 254). -/
def pBy : RPat :=
  lits "</h5>" ++ [.cl .ws .starG false] ++ lits "by " ++
    [.cl .dot .starG true, .lit 10]

/-- `(.*?)\s\((.*?)\)\s*` (source line 257). -/
def pAuthBind : RPat :=
  [.cl .dot .starL true, .cl .ws .one false, .lit 40, .cl .dot .starL true,
   .lit 41, .cl .ws .starG false]

/-- `title="(.*)" href` (source line 268). -/
def pTitle : RPat := lits "title=\"" ++ [.cl .dot .starG true] ++ lits "\" href"

/-- `<div id="itemImage_<itemid>"` (source line 275); the html-id the scanner
produces is `[A-Z0-9]+`, on which splicing it into the pattern is splicing
literals. -/
def pImgDiv (itemid : List Nat) : RPat :=
  lits "<div id=\"itemImage_" ++ itemid.map RTok.lit ++ [.lit 34]

/-- `<img .*? src="(.*?)"` (source line 279). -/
def pImg : RPat :=
  lits "<img " ++ [.cl .dot .starL false] ++ lits " src=\"" ++
    [.cl .dot .starL true, .lit 34]

/-- `<span id="itemPrice_<itemid>"` (source line 287). -/
def pPriceSpan (itemid : List Nat) : RPat :=
  lits "<span id=\"itemPrice_" ++ itemid.map RTok.lit ++ [.lit 34]

/-- `<span .*?>\s*(.*?)\s*</span>` (source line 291). -/
def pSpanContent : RPat :=
  lits "<span " ++ [.cl .dot .starL false, .lit 62, .cl .ws .starG false,
    .cl .dot .starL true, .cl .ws .starG false] ++ lits "</span>"

/-- `<a id="itemName_([A-Z0-9]+)"` (source line 332). -/
def pItemName : RPat :=
  lits "<a id=\"itemName_" ++ [.cl .upAl .plusG true, .lit 34]

/-- `<a href="(.*)">\s*Next` (source line 358). -/
def pNext : RPat :=
  lits "<a href=\"" ++ [.cl .dot .starG true] ++ lits "\">" ++
    [.cl .ws .starG false] ++ lits "Next"

/-! ### `parseItemData`

A Go string slice `page[a:b]` panics unless `0 ≤ a ≤ b ≤ len(page)`; the
embedding returns `none` exactly where the source panics.  The pound sign on
the Latin-1-encoded pages this scraper targets is the single byte `0xA3`
(equal to the code point U+00A3), which is what `price[1][0] == 0xA3`
tests. -/

/-- `WishlistItem` (source lines 214-216). -/
structure WishlistItem where
  amazonId : List Nat
  author : List Nat
  binding : List Nat
  title : List Nat
  imageUrl : List Nat
  currency : List Nat
  price : List Nat
deriving DecidableEq

/-- Group 1 of a submatch result, or empty when there was no match
(the `if len(xs) != 0` guards in the source). -/
def grp1 (r : Option (Nat × Nat × List (List Nat))) : List Nat :=
  match r with
  | some x => x.2.2.getD 0 []
  | none => []

/-- The amazon-id extraction (source lines 247-251). -/
def amazonIdOf (item : List Nat) : List Nat := grp1 (find pDp item)

/-- The author/binding extraction (source lines 254-265): author and binding
when the byline splits as `name (binding)`, otherwise the whole byline as
author. -/
def authorBindingOf (item : List Nat) : List Nat × List Nat :=
  match find pBy item with
  | none => ([], [])
  | some r =>
    let byline := r.2.2.getD 0 []
    match find pAuthBind byline with
    | none => (byline, [])
    | some r2 => (r2.2.2.getD 0 [], r2.2.2.getD 1 [])

/-- The title extraction (source lines 268-272). -/
def titleOf (item : List Nat) : List Nat := grp1 (find pTitle item)

/-- The image-url extraction (source lines 275-284): find the `itemImage`
div in the full page, then the first `img src` in the following 1000 bytes;
`none` when `page[idx:idx+1000]` would panic. -/
def imageUrlOf (page itemid : List Nat) : Option (List Nat) :=
  match find (pImgDiv itemid) page with
  | none => some []
  | some r =>
    let idx := r.2.1
    if page.length < idx + 1000 then none
    else some (grp1 (find pImg ((page.drop idx).take 1000)))

/-- The price extraction (source lines 287-302): find the `itemPrice` span
in the full page, read the next span's trimmed content in the window from 50
bytes before to 150 bytes after the match end, and strip a leading `0xA3`
byte into the currency `"GBP"`; `none` when `page[idx-50:idx+150]` would
panic. -/
def currencyPriceOf (page itemid : List Nat) : Option (List Nat × List Nat) :=
  match find (pPriceSpan itemid) page with
  | none => some ([], [])
  | some r =>
    let idx := r.2.1
    if idx < 50 ∨ page.length < idx + 150 then none
    else
      match find pSpanContent ((page.drop (idx - 50)).take 200) with
      | none => some ([], [])
      | some r2 =>
        let t := r2.2.2.getD 0 []
        match t with
        | b :: rest =>
          if b = 0xA3 then some (strBytes "GBP", rest) else some ([], t)
        | [] => some ([], [])

/-- `parseItemData` (source lines 240-305); `none` exactly where the source
panics on an out-of-range slice. -/
def parseItemData (page itemid item : List Nat) : Option WishlistItem :=
  let amazonId := amazonIdOf item
  let ab := authorBindingOf item
  let title := titleOf item
  match imageUrlOf page itemid with
  | none => none
  | some imageUrl =>
    match currencyPriceOf page itemid with
    | none => none
    | some cp =>
      some { amazonId := amazonId, author := ab.1, binding := ab.2,
             title := title, imageUrl := imageUrl,
             currency := cp.1, price := cp.2 }

/-! ### The pagination loop of the wishlist `main` (source lines 325-363) -/

/-- Scan one item-start match: slice the fragment `page[y0:y1+1000]`
(`none` when that would panic), re-find the html-id inside it (`none` when
`itemid[1]` would panic), and parse the item. -/
def scanOne (page : List Nat) (y : Nat × Nat) : Option WishlistItem :=
  if page.length < y.2 + 1000 then none
  else
    let item := (page.drop y.1).take (y.2 + 1000 - y.1)
    match find pItemName item with
    | none => none
    | some r => parseItemData page (r.2.2.getD 0 []) item

/-- Process the item-start matches of one page in document order. -/
def scanMatches (page : List Nat) : List (Nat × Nat) → Option (List WishlistItem)
  | [] => some []
  | y :: rest =>
    match scanOne page y with
    | none => none
    | some wi => (scanMatches page rest).map (wi :: ·)

/-- All items of one page (source lines 332-355), in document order;
`none` when the source would panic. -/
def scanPage (page : List Nat) : Option (List WishlistItem) :=
  scanMatches page (findAll pItemName page)

/-- The next-page check (source lines 358-362). -/
def hasNext (page : List Nat) : Bool := (find pNext page).isSome

/-- The page loop (source lines 325-363) over an abstract page fetcher
(`pages n` is the normalized text of wishlist page `n`); `fuel` bounds the
number of iterations observed, and `none` means the source panics or does not
finish within `fuel` pages. -/
def runPages (pages : Nat → List Nat) : Nat → Nat → Option (List WishlistItem)
  | 0, _ => none
  | fuel + 1, pageNo =>
    match scanPage (pages pageNo) with
    | none => none
    | some items =>
      if hasNext (pages pageNo) then
        (runPages pages fuel (pageNo + 1)).map (items ++ ·)
      else some items

/-! ### Concrete fixtures for the claims -/

/-- The fixed parameter mapping of the signature test vector. -/
def c1Query : AWSQuery :=
  { host := strBytes "ecs.amazonaws.co.uk"
    accessKey := []
    params := [(strBytes "A", strBytes "1"), (strBytes "B", strBytes "2")] }

/-- Credentials of the signature test vector. -/
def c1Cred : AWSCredentials :=
  { host := strBytes "ecs.amazonaws.co.uk"
    accessKey := []
    secret := strBytes "testsecret" }

/-- The same two parameters inserted in the opposite order. -/
def c2ParamsRev : List (List Nat × List Nat) :=
  [(strBytes "B", strBytes "2"), (strBytes "A", strBytes "1")]

/-- A page whose `itemPrice` span match ends before index 50, so
`page[idx-50:idx+150]` slices out of range. -/
def c4Page : List Nat := strBytes "<span id=\"itemPrice_A\">"

/-- A page whose price span, for html-id `A`, holds the pound byte `0xA3`
followed by `12.99`. -/
def c5PagePound : List Nat :=
  List.replicate 30 120 ++ strBytes "<span id=\"itemPrice_A\">" ++ [0xA3] ++
    strBytes "12.99</span>" ++ List.replicate 150 120

/-- The same page with a plain `12.99` price and no pound glyph. -/
def c5PagePlain : List Nat :=
  List.replicate 30 120 ++ strBytes "<span id=\"itemPrice_A\">" ++
    strBytes "12.99</span>" ++ List.replicate 150 120

/-- A wishlist item none of whose optional fields were found. -/
def c6Item : WishlistItem := ⟨[], [], [], [], [], [], []⟩

/-- Two-page fixture, page 1: one item marker, 1000 bytes of filler after the
marker match, and a next-page link. -/
def c6Page1 : List Nat :=
  strBytes "<a id=\"itemName_AA1\">" ++ List.replicate 1000 120 ++
    strBytes "<a href=\"u\">Next"

/-- Two-page fixture, page 2: one item marker, no next-page link. -/
def c6Page2 : List Nat :=
  strBytes "<a id=\"itemName_BB2\">" ++ List.replicate 1000 120

/-- The two-page fixture as a page fetcher. -/
def c6Pages : Nat → List Nat :=
  fun n => if n = 1 then c6Page1 else if n = 2 then c6Page2 else []

/-- Credentials used in the escaping fixtures. -/
def c7Cred : AWSCredentials :=
  { host := strBytes "ecs.amazonaws.co.uk"
    accessKey := strBytes "AKID"
    secret := strBytes "secret" }

/-- The values of the parameter mapping `lookupItem` signs. -/
def lookupParamValues (cred : AWSCredentials) (itemId now : List Nat) :
    List (List Nat) :=
  (lookupQuery cred itemId now).params.map (·.2)

/-- A document containing only a title element. -/
def titleOnlyDoc : XNode :=
  .elem (strBytes "ItemAttributes")
    (.cons (.elem (strBytes "Title")
      (.cons (.text (strBytes "The Hobbit")) .nil)) .nil)

/-- A document with three author elements in a fixed order. -/
def threeAuthorDoc : XNode :=
  .elem (strBytes "ItemAttributes")
    (.cons (.elem (strBytes "Author") (.cons (.text (strBytes "X1")) .nil))
    (.cons (.elem (strBytes "Binding") (.cons (.text (strBytes "Hardcover")) .nil))
    (.cons (.elem (strBytes "Author") (.cons (.text (strBytes "Y2")) .nil))
    (.cons (.elem (strBytes "Author") (.cons (.text (strBytes "Z3")) .nil)) .nil))))

/-- A page whose single item marker ends 1000 bytes short of the page end. -/
def c10Page : List Nat := strBytes "<a id=\"itemName_AB\""

/-! ### Theorems -/

/-- `escByte` never emits a space byte. -/
theorem escByte_no_space (b : Nat) : 32 ∉ escByte b := by
  unfold escByte
  split_ifs with h1 h2
  · intro hm
    rcases List.mem_singleton.mp hm with rfl
    exact absurd h1 (by decide)
  · intro hm
    rcases List.mem_singleton.mp hm with h
    omega
  · intro hm
    unfold hexDigU at hm
    rcases List.mem_cons.mp hm with h | hm
    · omega
    rcases List.mem_cons.mp hm with h | hm
    · split_ifs at h <;> omega
    rcases List.mem_cons.mp hm with h | hm
    · split_ifs at h <;> omega
    · simp at hm

/-- `url.QueryEscape` never emits a space byte. -/
theorem queryEscape_no_space (s : List Nat) : 32 ∉ queryEscape s := by
  intro hm
  obtain ⟨b, _, hb⟩ := List.mem_flatMap.mp hm
  exact escByte_no_space b hb

/-- C1: on the fixed vector — host `ecs.amazonaws.co.uk`, path `/onca/xml`,
secret `testsecret`, parameters `A=1`, `B=2` — `signRequest` returns the
canonical query `A=1&B=2` and the signature equal to the URL-escaped base64
HMAC-SHA256, keyed by the secret, of the string-to-sign
`GET\necs.amazonaws.co.uk\n/onca/xml\nA=1&B=2`. -/
theorem c1_signRequest_vector :
    signRequest c1Query c1Cred =
      (strBytes "A=1&B=2",
       queryEscape (base64Encode (hmacSha256 (strBytes "testsecret")
         (strBytes "GET\necs.amazonaws.co.uk\n/onca/xml\nA=1&B=2")))) := by
  rfl

/-- C2: `signRequest` is a pure function of the parameter mapping's contents:
re-running it is identical, and any permutation of the entry list (the
arbitrary iteration order of the Go map) yields the same canonical query and
signature, because the `key=value` strings are sorted before joining. -/
theorem c2_sign_order_independent (aws : AWSQuery) (cred : AWSCredentials)
    (l2 : List (List Nat × List Nat)) (hperm : aws.params.Perm l2) :
    signRequest aws cred = signRequest aws cred ∧
    signRequest { aws with params := l2 } cred = signRequest aws cred := by
  refine ⟨rfl, ?_⟩
  have hmap : (l2.map fun kv => kv.1 ++ strBytes "=" ++ kv.2).Perm
      (aws.params.map fun kv => kv.1 ++ strBytes "=" ++ kv.2) :=
    (hperm.map _).symm
  have hs : List.insertionSort bytesLe (l2.map fun kv => kv.1 ++ strBytes "=" ++ kv.2) =
      List.insertionSort bytesLe (aws.params.map fun kv => kv.1 ++ strBytes "=" ++ kv.2) :=
    List.eq_of_perm_of_sorted
      ((List.perm_insertionSort _ _).trans (hmap.trans (List.perm_insertionSort _ _).symm))
      (List.sorted_insertionSort _ _) (List.sorted_insertionSort _ _)
  simp only [signRequest, hs]

/-- Witness for C2: swapping the two parameters of the test vector changes
nothing. -/
theorem c2_witness :
    signRequest { host := strBytes "ecs.amazonaws.co.uk", accessKey := [],
                  params := c2ParamsRev } c1Cred =
      signRequest c1Query c1Cred :=
  (c2_sign_order_independent c1Query c1Cred c2ParamsRev (by decide)).2

/-- C3: the lookup operation fails with `network` exactly when the GET cannot
be completed, with `malformed` exactly when the body does not parse, with
`notFound` exactly when the parsed document has no `ItemAttributes` block,
and succeeds (with the parsed attributes of the first block) otherwise — no
other failure mode exists. -/
theorem c3_lookup_error_modes (get : List Nat → Option (List Nat))
    (parseXml : List Nat → Option XNode) (cred : AWSCredentials)
    (itemId now : List Nat) :
    (lookupItemOp get parseXml cred itemId now = .error .network ↔
      get (requestUrl cred itemId now) = none) ∧
    (lookupItemOp get parseXml cred itemId now = .error .malformed ↔
      ∃ b, get (requestUrl cred itemId now) = some b ∧ parseXml b = none) ∧
    (lookupItemOp get parseXml cred itemId now = .error .notFound ↔
      ∃ b root, get (requestUrl cred itemId now) = some b ∧ parseXml b = some root ∧
        (queryAll (strBytes "ItemAttributes") root).head? = none) ∧
    ((∃ attrs, lookupItemOp get parseXml cred itemId now = .ok attrs) ↔
      ∃ b root node, get (requestUrl cred itemId now) = some b ∧
        parseXml b = some root ∧
        (queryAll (strBytes "ItemAttributes") root).head? = some node ∧
        lookupItemOp get parseXml cred itemId now = .ok (parseItemAttributes node)) := by
  unfold lookupItemOp
  rcases hg : get (requestUrl cred itemId now) with _ | b
  · simp
  · rcases hp : parseXml b with _ | root
    · simp [hp]
    · rcases hh : (queryAll (strBytes "ItemAttributes") root).head? with _ | node
      · have h0 := List.head?_eq_none_iff.mp hh
        simp [hp, hh, h0]
      · simp [hp, hh]
        intro h
        rw [h] at hh
        simp at hh

/-- C7 counterexample: for the item identifier `a b` (two letters split by a
space), the built parameter mapping holds a value that is not percent-escaped:
no string escapes to `a b`, since escaping never emits a space byte. -/
theorem c7_counterexample :
    ¬ ∀ v ∈ lookupParamValues c7Cred (strBytes "a b")
        (strBytes "2015-01-01T00:00:00Z"), ∃ s, queryEscape s = v := by
  intro h
  obtain ⟨s, hs⟩ := h (strBytes "a b") (by decide)
  have h32 : 32 ∈ queryEscape s := by
    rw [hs]; decide
  exact queryEscape_no_space s h32

/-- C7 amended: the fixed base parameter values and the timestamp are
percent-escaped at insertion, but the access key and the item identifier are
inserted verbatim; every value of the mapping is percent-escaped exactly when
those two caller-supplied values already are, and the stored `ItemId` entry
is the identifier verbatim.  (Canonicalization itself performs no escaping;
`signRequest` only sorts and joins.) -/
theorem c7_values_escaped_amended (cred : AWSCredentials) (itemId now : List Nat)
    (hak : ∃ s, queryEscape s = cred.accessKey)
    (hid : ∃ s, queryEscape s = itemId) :
    (∀ v ∈ lookupParamValues cred itemId now, ∃ s, queryEscape s = v) ∧
    (strBytes "ItemId", itemId) ∈ (lookupQuery cred itemId now).params := by
  constructor
  · intro v hv
    simp only [lookupParamValues, lookupQuery, newAWSQuery, List.map_append,
      List.map_cons, List.map_nil, List.mem_append, List.mem_cons,
      List.not_mem_nil, or_false] at hv
    rcases hv with (rfl | rfl | rfl | rfl | rfl) | rfl | rfl | rfl
    · exact ⟨strBytes "AWSECommerceService", by decide⟩
    · exact ⟨strBytes "2011-08-01", by decide⟩
    · exact ⟨strBytes "PutYourAssociateTagHere", by decide⟩
    · exact ⟨now, rfl⟩
    · exact hak
    · exact ⟨strBytes "ItemLookup", by decide⟩
    · exact hid
    · exact ⟨strBytes "ItemAttributes", by decide⟩
  · simp [lookupQuery, newAWSQuery]

/-- Witness for the amended C7, at an alphanumeric access key and item
identifier. -/
theorem c7_witness :
    (strBytes "ItemId", strBytes "0316769487") ∈
      (lookupQuery c7Cred (strBytes "0316769487")
        (strBytes "2015-01-01T00:00:00Z")).params :=
  (c7_values_escaped_amended c7Cred (strBytes "0316769487")
    (strBytes "2015-01-01T00:00:00Z")
    ⟨strBytes "AKID", by decide⟩ ⟨strBytes "0316769487", by decide⟩).2

/-- C8: `parseItemAttributes` tolerates partial documents: for every document,
each single-valued field is the text content of the first matching element
and is empty when no element matches (never an error); a document containing
only a title element yields the title populated and every other field
empty. -/
theorem c8_partial_documents :
    (∀ n : XNode,
      ((queryAll (strBytes "Binding") n = [] → (parseItemAttributes n).binding = []) ∧
        ∀ e rest, queryAll (strBytes "Binding") n = e :: rest →
          (parseItemAttributes n).binding = textContent e) ∧
      ((queryAll (strBytes "EAN") n = [] → (parseItemAttributes n).ean = []) ∧
        ∀ e rest, queryAll (strBytes "EAN") n = e :: rest →
          (parseItemAttributes n).ean = textContent e) ∧
      ((queryAll (strBytes "Edition") n = [] → (parseItemAttributes n).edition = []) ∧
        ∀ e rest, queryAll (strBytes "Edition") n = e :: rest →
          (parseItemAttributes n).edition = textContent e) ∧
      ((queryAll (strBytes "ISBN") n = [] → (parseItemAttributes n).isbn = []) ∧
        ∀ e rest, queryAll (strBytes "ISBN") n = e :: rest →
          (parseItemAttributes n).isbn = textContent e) ∧
      ((queryAll (strBytes "NumberOfPages") n = [] → (parseItemAttributes n).pages = []) ∧
        ∀ e rest, queryAll (strBytes "NumberOfPages") n = e :: rest →
          (parseItemAttributes n).pages = textContent e) ∧
      ((queryAll (strBytes "PublicationDate") n = [] →
          (parseItemAttributes n).publicationDate = []) ∧
        ∀ e rest, queryAll (strBytes "PublicationDate") n = e :: rest →
          (parseItemAttributes n).publicationDate = textContent e) ∧
      ((queryAll (strBytes "Publisher") n = [] → (parseItemAttributes n).publisher = []) ∧
        ∀ e rest, queryAll (strBytes "Publisher") n = e :: rest →
          (parseItemAttributes n).publisher = textContent e) ∧
      ((queryAll (strBytes "Title") n = [] → (parseItemAttributes n).title = []) ∧
        ∀ e rest, queryAll (strBytes "Title") n = e :: rest →
          (parseItemAttributes n).title = textContent e) ∧
      ((queryTwo (strBytes "ListPrice") (strBytes "Amount") n = [] →
          (parseItemAttributes n).price = []) ∧
        ∀ e rest, queryTwo (strBytes "ListPrice") (strBytes "Amount") n = e :: rest →
          (parseItemAttributes n).price = textContent e) ∧
      ((queryTwo (strBytes "ListPrice") (strBytes "CurrencyCode") n = [] →
          (parseItemAttributes n).priceCurrency = []) ∧
        ∀ e rest, queryTwo (strBytes "ListPrice") (strBytes "CurrencyCode") n = e :: rest →
          (parseItemAttributes n).priceCurrency = textContent e) ∧
      (queryAll (strBytes "Author") n = [] → (parseItemAttributes n).author = [])) ∧
    parseItemAttributes titleOnlyDoc =
      { author := [], binding := [], ean := [], edition := [], isbn := [],
        pages := [], publicationDate := [], publisher := [],
        title := strBytes "The Hobbit", price := [], priceCurrency := [] } := by
  constructor
  · intro n
    refine ⟨⟨?_, ?_⟩, ⟨?_, ?_⟩, ⟨?_, ?_⟩, ⟨?_, ?_⟩, ⟨?_, ?_⟩, ⟨?_, ?_⟩,
      ⟨?_, ?_⟩, ⟨?_, ?_⟩, ⟨?_, ?_⟩, ⟨?_, ?_⟩, ?_⟩ <;>
      first
        | (intro h; simp [parseItemAttributes, optText, h])
        | (intro e rest h; simp [parseItemAttributes, optText, h])
  · decide

/-- C9: the authors list is the text of every author element, in document
order, with no reordering and no deduplication; three author elements yield
those three authors in order. -/
theorem c9_authors_document_order :
    (∀ n : XNode, (parseItemAttributes n).author =
      (queryAll (strBytes "Author") n).map textContent) ∧
    (parseItemAttributes threeAuthorDoc).author =
      [strBytes "X1", strBytes "Y2", strBytes "Z3"] :=
  ⟨fun _ => rfl, by decide⟩

/-- When every `itemImage` match leaves 1000 bytes of page after it, the
image step does not panic. -/
theorem imageUrlOf_total (page itemid : List Nat)
    (himg : ∀ s e c, find (pImgDiv itemid) page = some (s, e, c) →
      e + 1000 ≤ page.length) :
    imageUrlOf page itemid = some ((imageUrlOf page itemid).getD []) := by
  unfold imageUrlOf
  rcases hf : find (pImgDiv itemid) page with _ | ⟨s, e, c⟩
  · rfl
  · have hb := himg s e c hf
    dsimp only
    rw [if_neg (by omega)]
    rfl

/-- When every `itemPrice` match ends at index at least 50 and leaves 150
bytes of page after it, the price step does not panic. -/
theorem currencyPriceOf_total (page itemid : List Nat)
    (hpr : ∀ s e c, find (pPriceSpan itemid) page = some (s, e, c) →
      50 ≤ e ∧ e + 150 ≤ page.length) :
    currencyPriceOf page itemid =
      some ((currencyPriceOf page itemid).getD ([], [])) := by
  unfold currencyPriceOf
  rcases hf : find (pPriceSpan itemid) page with _ | ⟨s, e, c⟩
  · rfl
  · obtain ⟨h1, h2⟩ := hpr s e c hf
    dsimp only
    rw [if_neg (by omega)]
    rcases hsp : find pSpanContent ((page.drop (e - 50)).take 200) with _ | r2
    · rfl
    · rcases ht : r2.2.2.getD 0 [] with _ | ⟨b, rest⟩
      · simp only [ht]
        rfl
      · simp only [ht]
        by_cases hb : b = 0xA3 <;> simp [hb]

/-- C4 counterexample: on a page that is exactly an `itemPrice` span opening
tag, the price-window slice `page[idx-50:idx+150]` is out of range and
`parseItemData` panics instead of returning a `WishlistItem`. -/
theorem c4_counterexample : parseItemData c4Page (strBytes "A") [] = none := by
  decide

/-- C4 amended: for an alphanumeric html-id, and provided every `itemImage`
match leaves 1000 bytes of page after it and every `itemPrice` match ends at
index at least 50 and leaves 150 bytes after it (otherwise the source panics
on a slice), `parseItemData` returns a `WishlistItem` whose fields are
computed by independent extractors, each empty when its pattern does not
match; in particular a fragment with no detail-page link yields an empty
amazon id. -/
theorem c4_parser_amended (page itemid item : List Nat)
    (_hid : itemid.all (clsMatch .upAl) = true)
    (himg : ∀ s e c, find (pImgDiv itemid) page = some (s, e, c) →
      e + 1000 ≤ page.length)
    (hpr : ∀ s e c, find (pPriceSpan itemid) page = some (s, e, c) →
      50 ≤ e ∧ e + 150 ≤ page.length) :
    parseItemData page itemid item = some
      { amazonId := amazonIdOf item
        author := (authorBindingOf item).1
        binding := (authorBindingOf item).2
        title := titleOf item
        imageUrl := (imageUrlOf page itemid).getD []
        currency := ((currencyPriceOf page itemid).getD ([], [])).1
        price := ((currencyPriceOf page itemid).getD ([], [])).2 } ∧
    (find pDp item = none → amazonIdOf item = []) := by
  constructor
  · unfold parseItemData
    rw [imageUrlOf_total page itemid himg, currencyPriceOf_total page itemid hpr]
    rfl
  · intro h
    unfold amazonIdOf grp1
    rw [h]

/-- Witness for the amended C4: the empty page and fragment satisfy the
window preconditions vacuously and every field comes back empty. -/
theorem c4_witness :
    parseItemData [] (strBytes "A") [] =
      some { amazonId := [], author := [], binding := [], title := [],
             imageUrl := [], currency := [], price := [] } := by
  have h := (c4_parser_amended [] (strBytes "A") [] (by decide)
    (by intro s e c hf
        have hn : find (pImgDiv (strBytes "A")) [] = none := by decide
        rw [hn] at hf
        exact Option.noConfusion hf)
    (by intro s e c hf
        have hn : find (pPriceSpan (strBytes "A")) [] = none := by decide
        rw [hn] at hf
        exact Option.noConfusion hf)).1
  rw [h]
  decide

/-- C5: the price rule of `parseItemData`: when the price span's trimmed
content, as captured by the span regex, starts with the pound byte `0xA3`
(the value of code point U+00A3, the pound sign as encoded on the pages this
scraper targets), that byte is stripped, the currency is `GBP` and the rest
is the price; otherwise the currency stays empty and the whole text is the
price. -/
theorem c5_pound_strip (page itemid : List Nat) (s e : Nat)
    (c : List (List Nat)) (s2 e2 : Nat) (t : List Nat)
    (hfind : find (pPriceSpan itemid) page = some (s, e, c))
    (hlo : 50 ≤ e) (hhi : e + 150 ≤ page.length)
    (hspan : find pSpanContent ((page.drop (e - 50)).take 200) =
      some (s2, e2, [t])) :
    currencyPriceOf page itemid =
      some (if t.head? = some 0xA3 then (strBytes "GBP", t.tail)
            else ([], t)) := by
  unfold currencyPriceOf
  rw [hfind]
  dsimp only
  rw [if_neg (by omega)]
  rw [hspan]
  dsimp only [List.getD]
  rcases t with _ | ⟨b, rest⟩
  · simp
  · by_cases hb : b = 0xA3
    · subst hb
      simp
    · simp [hb]

set_option maxRecDepth 40000 in
set_option maxHeartbeats 1000000 in
/-- Witness for C5: the pound byte followed by `12.99` yields
`currency = "GBP"` and `price = "12.99"`; a plain `12.99` yields an empty
currency and `price = "12.99"`. -/
theorem c5_witness :
    currencyPriceOf c5PagePound (strBytes "A") =
      some (strBytes "GBP", strBytes "12.99") ∧
    currencyPriceOf c5PagePlain (strBytes "A") =
      some ([], strBytes "12.99") := by
  constructor
  · have h := c5_pound_strip c5PagePound (strBytes "A") 30 52 [] 28 64
      (0xA3 :: strBytes "12.99") (by decide) (by decide) (by decide) (by decide)
    rw [h]
    decide
  · have h := c5_pound_strip c5PagePlain (strBytes "A") 30 52 [] 28 63
      (strBytes "12.99") (by decide) (by decide) (by decide) (by decide)
    rw [h]
    decide

/-- A scan whose match list holds a marker ending less than 1000 bytes
before the page end panics. -/
theorem scanMatches_marker_close (page : List Nat) :
    ∀ l : List (Nat × Nat), (∃ y ∈ l, page.length < y.2 + 1000) →
      scanMatches page l = none
  | [], h => by simp at h
  | y :: t, h => by
    rcases h with ⟨z, hz, hlen⟩
    rcases List.mem_cons.mp hz with rfl | hzt
    · have h1 : scanOne page z = none := by
        unfold scanOne
        rw [if_pos hlen]
      unfold scanMatches
      rw [h1]
    · rcases hso : scanOne page y with _ | wi
      · unfold scanMatches
        rw [hso]
      · unfold scanMatches
        rw [hso, scanMatches_marker_close page t ⟨z, hzt, hlen⟩]
        rfl

/-- C10: the fragment of an item is `page[y0:y1+1000]`, so the scan of a page
is defined only when every item-start match ends at least 1000 bytes before
the page end; a page violating that makes the scan panic, producing no
items. -/
theorem c10_fragment_bound (page : List Nat)
    (h : ∃ y ∈ findAll pItemName page, page.length < y.2 + 1000) :
    scanPage page = none := by
  unfold scanPage
  exact scanMatches_marker_close page _ h

/-- Witness for C10: a page that ends at its item marker panics the scan. -/
theorem c10_witness : scanPage c10Page = none :=
  c10_fragment_bound c10Page ⟨(0, 19), by decide, by decide⟩

/-- The page loop starting at page `k`: when the `m` pages after `k` each
have a next link, page `k + m` does not, and every page in that range scans
cleanly, the loop returns exactly those pages' items in order. -/
theorem runPages_from (pages : Nat → List Nat) (its : Nat → List WishlistItem) :
    ∀ m k fuel : Nat,
      (∀ i, k ≤ i → i < k + m → hasNext (pages i) = true) →
      hasNext (pages (k + m)) = false →
      (∀ i, k ≤ i → i ≤ k + m → scanPage (pages i) = some (its i)) →
      m < fuel →
      runPages pages fuel k = some (((List.range' k (m + 1)).map its).flatten)
  | 0, k, fuel + 1, _, hlast, hscan, _ => by
      unfold runPages
      rw [hscan k le_rfl (Nat.le_add_right k 0)]
      rw [show hasNext (pages k) = false from hlast]
      simp [List.range']
  | m + 1, k, fuel + 1, hnext, hlast, hscan, hfuel => by
      unfold runPages
      rw [hscan k le_rfl (by omega)]
      rw [hnext k le_rfl (by omega)]
      rw [runPages_from pages its m (k + 1) fuel
        (fun i h1 h2 => hnext i (by omega) (by omega))
        (by rw [show k + 1 + m = k + (m + 1) from by omega]
            exact hlast)
        (fun i h1 h2 => hscan i (by omega) (by omega))
        (by omega)]
      simp [List.range']

/-- C6: when pages `1 .. n-1` each contain a next-page link, page `n` does
not, and every page in `1 .. n` scans cleanly to its item list, the loop
yields exactly the items of pages `1` through `n` in order and terminates,
never fetching a later page: the result only depends on pages `1 .. n`. -/
theorem c6_pagination (pages : Nat → List Nat) (its : Nat → List WishlistItem)
    (n : Nat) (hn : 1 ≤ n)
    (hnext : ∀ i, 1 ≤ i → i < n → hasNext (pages i) = true)
    (hlast : hasNext (pages n) = false)
    (hscan : ∀ i, 1 ≤ i → i ≤ n → scanPage (pages i) = some (its i)) :
    ∀ fuel, n ≤ fuel → ∀ pages2 : Nat → List Nat,
      (∀ i, 1 ≤ i → i ≤ n → pages2 i = pages i) →
      runPages pages2 fuel 1 = some (((List.range' 1 n).map its).flatten) := by
  intro fuel hfuel pages2 hagree
  obtain ⟨m, rfl⟩ : ∃ m, n = m + 1 := ⟨n - 1, by omega⟩
  exact runPages_from pages2 its m 1 fuel
    (fun i h1 h2 => by
      rw [hagree i h1 (by omega)]
      exact hnext i h1 (by omega))
    (by rw [hagree (1 + m) (by omega) (by omega),
          show 1 + m = m + 1 from by omega]
        exact hlast)
    (fun i h1 h2 => by
      rw [hagree i h1 (by omega)]
      exact hscan i h1 (by omega))
    (by omega)

set_option maxRecDepth 1000000 in
set_option maxHeartbeats 16000000 in
/-- Witness for C6: on the two-page fixture — page 1 with a next link, page 2
without — the loop returns both pages' single items and stops. -/
theorem c6_witness : runPages c6Pages 2 1 = some [c6Item, c6Item] := by
  have h := c6_pagination c6Pages (fun _ => [c6Item]) 2 (by omega)
    (fun i h1 h2 => by
      rw [show i = 1 from by omega]
      decide)
    (by decide)
    (fun i h1 h2 => by
      rcases (show i = 1 ∨ i = 2 from by omega) with rfl | rfl
      · decide
      · decide)
    2 le_rfl c6Pages (fun _ _ _ => rfl)
  rw [h]
  decide

end Amzn
